import Mathlib

/-!
Shallow embedding of `pprm.py` (Probabilistic Phonological Relationship Model
for German phone pairs) and verification of its specification.

Modelling conventions:
* Python strings are `String`; frequencies are `Nat` (non-negative integers).
* Python's `phone[0]` raises `IndexError` on an empty string, so `is_vowel`
  returns `Option Bool` (`none` models the raise).
* The environment classifiers index into the phone list with `phones[i-1]`,
  `phones[i+1]`; a raising access is modelled as `Option.none`, so each
  classifier returns `Option String`.  `envApply` discharges the option for
  the aggregator, which in the program only ever calls a classifier at an
  in-range index of a list of non-empty phones.
* Python dicts keyed by environment/phone become total functions defaulting
  to the dict's initial value (`0` / `[]`), plus an explicit `envs` list
  recording which keys have been created (dict insertion order).
* Floats become `ℝ` (entropies, via `Real.logb 2`) and `ℚ` (the environment
  weights, which the program computes by exact count ratios).
-/

/-- German CPSAMPA vowel symbols (the `vowels` set in `is_vowel`). -/
def vowels : List String :=
  ["a","A","e","E","i","I","o","O","u","U","y","Y","2","9","@","3","aI","aU","OY"]

/-- `s.startswith(p)` (Lean's `String.startsWith` is extensionally the same
but does not kernel-reduce, so it is phrased on the character lists). -/
def str_starts_with (s p : String) : Bool :=
  p.data.isPrefixOf s.data

/-- `is_vowel(phone)`: membership of `phone[0]` in `vowels`.
Python's `phone[0]` raises `IndexError` on the empty string, hence `Option`. -/
def is_vowel (phone : String) : Option Bool :=
  match phone.data with
  | [] => none
  | c :: _ => some (vowels.contains (String.mk [c]))

/-- Front-vowel prefixes used by `is_front_vowel`. -/
def front_vowels : List String :=
  ["i","I","e","E","y","Y","2","9","e:","i:","ø","œ","æ"]

/-- `is_front_vowel(phone)`: some front-vowel symbol prefixes `phone`. -/
def is_front_vowel (phone : String) : Bool :=
  front_vowels.any (fun vf => str_starts_with phone vf)

/-- Back-vowel prefixes used by `is_back_vowel`. -/
def back_vowels : List String :=
  ["a","A","o","O","u","U","o:","u:","ɔ","ʊ","ɑ"]

/-- `is_back_vowel(phone)`: some back-vowel symbol prefixes `phone`. -/
def is_back_vowel (phone : String) : Bool :=
  back_vowels.any (fun vb => str_starts_with phone vb)

/-- Split a character list on `'.'` (the semantics of Python `split('.')`:
one segment per delimiter gap, empty segments included). -/
def split_dots : List Char → List Char → List String
  | [], acc => [String.mk acc.reverse]
  | c :: rest, acc =>
    if c = '.' then String.mk acc.reverse :: split_dots rest []
    else split_dots rest (c :: acc)

/-- `phone_sequence(cpsampa)`: split on `'.'` and drop empty tokens. -/
def phone_sequence (cpsampa : String) : List String :=
  (split_dots cpsampa.data []).filter (fun t => t ≠ "")

/-- `env_x_c(phones, i)`: environment classifier for [x] vs [ç].
`phones[i-1]` is read (Python: may raise) before the final/medial split. -/
def env_x_c (phones : List String) (i : Nat) : Option String :=
  if i = 0 then some "WordInitial"
  else
    match phones.get? (i - 1) with
    | none => none
    | some prev_phone =>
      if i = phones.length - 1 then
        if is_back_vowel prev_phone then some "WordFinal_AfterBackVowel"
        else some "WordFinal_AfterFrontOrCons"
      else
        if is_back_vowel prev_phone then some "Medial_AfterBackVowel"
        else some "Medial_AfterFrontOrCons"

/-- `env_s_S(phones, i)`: environment classifier for [s] vs [ʃ]. -/
def env_s_S (phones : List String) (i : Nat) : Option String :=
  if i = 0 then
    if 1 < phones.length then
      match phones.get? (i + 1) with
      | none => none
      | some nxt =>
        if nxt = "p" ∨ nxt = "t" then some "WordInitial_s_plus_stop"
        else some "WordInitial_s_alone"
    else some "WordInitial_s_alone"
  else if i = phones.length - 1 then some "WordFinal"
  else some "WordMedial"

/-- `env_d_t(phones, i)`: environment classifier for [d] vs [t].
Python's `is_vowel(left) and is_vowel(right)` short-circuits, which the
nested match reproduces. -/
def env_d_t (phones : List String) (i : Nat) : Option String :=
  if i = 0 then some "WordInitial"
  else if i = phones.length - 1 then some "WordFinal"
  else
    match phones.get? (i - 1), phones.get? (i + 1) with
    | some left, some right =>
      match is_vowel left with
      | none => none
      | some false => some "ClusterOrOther"
      | some true =>
        match is_vowel right with
        | none => none
        | some rv => if rv then some "Intervocalic_V_V" else some "ClusterOrOther"
    | _, _ => none

/-- Total wrapper around a classifier; the default is never reached on the
calls the aggregator makes (in-range index, non-empty phones). -/
def envApply (f : List String → Nat → Option String) (phones : List String) (i : Nat) : String :=
  (f phones i).getD "IndexError"

/-- One row of the dataset (`Word`, `Phono`, `Frequency` columns). -/
structure WordRecord where
  word : String
  phono : String
  freq : Nat
deriving DecidableEq

/-- Pointwise update of a two-key map represented as a total function. -/
def upd2 {α : Type} (f : String → String → α) (e p : String) (v : α) : String → String → α :=
  fun e' p' => if e' = e ∧ p' = p then v else f e' p'

/-- The aggregator's mutable state during the scan of `pprm_for_pair`:
`counts_type`, `counts_token`, `counts_type_tracker`, with `envs` recording
which environment keys the dicts hold (in insertion order). -/
structure ScanState where
  envs : List String
  counts_type : String → String → Nat
  counts_token : String → String → Nat
  tracker : String → String → List String

/-- The empty dicts at the top of `pprm_for_pair`. -/
def initState : ScanState :=
  ⟨[], fun _ _ => 0, fun _ _ => 0, fun _ _ => []⟩

/-- `ensure_env(env)`: create the key on first use.  The zero / empty-set
initial values are the defaults of the total functions, so only `envs`
changes. -/
def ensure_env (s : ScanState) (env : String) : ScanState :=
  if env ∈ s.envs then s else { s with envs := s.envs ++ [env] }

/-- The body of the inner loop of `pprm_for_pair` for one position `i` with
phone `ph` of the current word. -/
def processOcc (phoneX phoneY : String) (env_f : List String → Nat → String)
    (word : String) (freq : Nat) (phones : List String)
    (s : ScanState) (i : Nat) (ph : String) : ScanState :=
  if ph = phoneX ∨ ph = phoneY then
    let env_label := env_f phones i
    let s0 := ensure_env s env_label
    let s1 :=
      if word ∈ s0.tracker env_label ph then s0
      else
        { s0 with
          counts_type := upd2 s0.counts_type env_label ph (s0.counts_type env_label ph + 1),
          tracker := upd2 s0.tracker env_label ph (word :: s0.tracker env_label ph) }
    { s1 with
      counts_token := upd2 s1.counts_token env_label ph (s1.counts_token env_label ph + freq) }
  else s

/-- Process one dataset row: enumerate the word's phones and fold the inner
loop body over the positions. -/
def processRecord (phoneX phoneY : String) (env_f : List String → Nat → String)
    (s : ScanState) (r : WordRecord) : ScanState :=
  (phone_sequence r.phono).enum.foldl
    (fun s' ip => processOcc phoneX phoneY env_f r.word r.freq (phone_sequence r.phono) s' ip.1 ip.2) s

/-- The full counting scan of `pprm_for_pair` over the dataset. -/
def scanRows (df : List WordRecord) (phoneX phoneY : String)
    (env_f : List String → Nat → String) : ScanState :=
  df.foldl (processRecord phoneX phoneY env_f) initState

/-- `total_types`: sum over all environment keys of both phones' type counts. -/
def total_types (s : ScanState) (phoneX phoneY : String) : Nat :=
  (s.envs.map (fun env => s.counts_type env phoneX + s.counts_type env phoneY)).sum

/-- `total_tokens`: sum over all environment keys of both phones' token counts. -/
def total_tokens (s : ScanState) (phoneX phoneY : String) : Nat :=
  (s.envs.map (fun env => s.counts_token env phoneX + s.counts_token env phoneY)).sum

/-- The environments passing the `(X_type + Y_type) > 0` guard, in key order. -/
def qualifying_type (s : ScanState) (phoneX phoneY : String) : List String :=
  s.envs.filter (fun env => decide (0 < s.counts_type env phoneX + s.counts_type env phoneY))

/-- The environments passing the `(X_token + Y_token) > 0` guard, in key order. -/
def qualifying_token (s : ScanState) (phoneX phoneY : String) : List String :=
  s.envs.filter (fun env => decide (0 < s.counts_token env phoneX + s.counts_token env phoneY))

/-- `shannon_entropy(prob1, prob2)`: binary Shannon entropy with the `p > 0`
guards of the source (a zero or negative probability contributes `0`). -/
noncomputable def shannon_entropy (prob1 prob2 : ℝ) : ℝ :=
  (if 0 < prob1 then -(prob1 * Real.logb 2 prob1) else 0) +
  (if 0 < prob2 then -(prob2 * Real.logb 2 prob2) else 0)

/-- `env_probs_type[env] = (X_type + Y_type) / total_types` (exact ratio). -/
def env_prob_type (s : ScanState) (phoneX phoneY env : String) : ℚ :=
  ((s.counts_type env phoneX + s.counts_type env phoneY : Nat) : ℚ) /
    ((total_types s phoneX phoneY : Nat) : ℚ)

/-- `env_probs_token[env] = (X_token + Y_token) / total_tokens` (exact ratio). -/
def env_prob_token (s : ScanState) (phoneX phoneY env : String) : ℚ :=
  ((s.counts_token env phoneX + s.counts_token env phoneY : Nat) : ℚ) /
    ((total_tokens s phoneX phoneY : Nat) : ℚ)

/-- `env_entropies_type[env]`: entropy of `pX_type = X_type/(X_type+Y_type)`
and `pY_type = 1 - pX_type`. -/
noncomputable def env_entropy_type (s : ScanState) (phoneX phoneY env : String) : ℝ :=
  let pX : ℝ := (s.counts_type env phoneX : ℝ) /
    ((s.counts_type env phoneX + s.counts_type env phoneY : Nat) : ℝ)
  shannon_entropy pX (1 - pX)

/-- `env_entropies_token[env]`: entropy of `pX_token = X_token/(X_token+Y_token)`
and `pY_token = 1 - pX_token`. -/
noncomputable def env_entropy_token (s : ScanState) (phoneX phoneY env : String) : ℝ :=
  let pX : ℝ := (s.counts_token env phoneX : ℝ) /
    ((s.counts_token env phoneX + s.counts_token env phoneY : Nat) : ℝ)
  shannon_entropy pX (1 - pX)

/-- `overall_entropy_type = Σ env_probs_type[env] * env_entropies_type[env]`
over the qualifying environments. -/
noncomputable def overall_entropy_type (s : ScanState) (phoneX phoneY : String) : ℝ :=
  ((qualifying_type s phoneX phoneY).map
    (fun env => ((env_prob_type s phoneX phoneY env : ℚ) : ℝ) *
      env_entropy_type s phoneX phoneY env)).sum

/-- `overall_entropy_token = Σ env_probs_token[env] * env_entropies_token[env]`
over the qualifying environments. -/
noncomputable def overall_entropy_token (s : ScanState) (phoneX phoneY : String) : ℝ :=
  ((qualifying_token s phoneX phoneY).map
    (fun env => ((env_prob_token s phoneX phoneY env : ℚ) : ℝ) *
      env_entropy_token s phoneX phoneY env)).sum

/-- The `result` dict returned by `pprm_for_pair` (dicts as association lists
in key order). -/
structure PairResult where
  pair : String
  type_entropy : ℝ
  token_entropy : ℝ
  env_type_counts : List (String × Nat × Nat)
  env_token_counts : List (String × Nat × Nat)
  env_type_entropies : List (String × ℝ)
  env_token_entropies : List (String × ℝ)
  env_type_probs : List (String × ℚ)
  env_token_probs : List (String × ℚ)

/-- `pprm_for_pair(df, phoneX, phoneY, env_function)`. -/
noncomputable def pprm_for_pair (df : List WordRecord) (phoneX phoneY : String)
    (env_f : List String → Nat → String) : PairResult :=
  let s := scanRows df phoneX phoneY env_f
  { pair := "[" ++ phoneX ++ "]~[" ++ phoneY ++ "]"
    type_entropy := overall_entropy_type s phoneX phoneY
    token_entropy := overall_entropy_token s phoneX phoneY
    env_type_counts := s.envs.map (fun env => (env, s.counts_type env phoneX, s.counts_type env phoneY))
    env_token_counts := s.envs.map (fun env => (env, s.counts_token env phoneX, s.counts_token env phoneY))
    env_type_entropies := (qualifying_type s phoneX phoneY).map
      (fun env => (env, env_entropy_type s phoneX phoneY env))
    env_token_entropies := (qualifying_token s phoneX phoneY).map
      (fun env => (env, env_entropy_token s phoneX phoneY env))
    env_type_probs := (qualifying_type s phoneX phoneY).map
      (fun env => (env, env_prob_type s phoneX phoneY env))
    env_token_probs := (qualifying_token s phoneX phoneY).map
      (fun env => (env, env_prob_token s phoneX phoneY env)) }

example : env_x_c ["I", "C"] 1 = some "WordFinal_AfterFrontOrCons" := by decide
example : env_s_S ["s"] 0 = some "WordInitial_s_alone" := by decide
example : env_s_S ["S", "t", "a"] 0 = some "WordInitial_s_plus_stop" := by decide
example : env_d_t ["a", "d", "a"] 1 = some "Intervocalic_V_V" := by decide
example : phone_sequence "h.a.b.@.n" = ["h", "a", "b", "@", "n"] := by decide
example : is_vowel "" = none := by decide
example : is_vowel "aI" = some true := by decide


/-- The spec's empty-pair scenario dataset. -/
def habenSagenDf : List WordRecord :=
  [⟨"haben", "h.a.b.@.n", 100⟩, ⟨"sagen", "z.a.g.@.n", 50⟩]

/-- The spec's single-word scenario dataset. -/
def ichDf : List WordRecord := [⟨"ich", "I.C", 10⟩]

/-- Scan of the `ich` dataset for the pair (x, ç). -/
def ichScan : ScanState := scanRows ichDf "x" "C" (envApply env_x_c)

/-- A dataset whose only row has corpus frequency zero. -/
def zeroFreqDf : List WordRecord := [⟨"a", "x", 0⟩]

/-- Scan of the zero-frequency dataset for the pair (x, ç). -/
def zeroFreqScan : ScanState := scanRows zeroFreqDf "x" "C" (envApply env_x_c)

/-- A one-row dataset in which the pair (d, t) does occur. -/
def daDf : List WordRecord := [⟨"da", "d.a", 1⟩]

/-- Scan of that dataset for the pair (d, t). -/
def daScan : ScanState := scanRows daDf "d" "t" (envApply env_d_t)

/-- A one-word dataset with two occurrences of `t` in the same environment
(`Intervocalic_V_V` at indices 1 and 3). -/
def atataDf : List WordRecord := [⟨"atata", "a.t.a.t.a", 5⟩]

/-- Number of qualifying occurrences of phone `p` in environment `env` in a
phone sequence: positions carrying `p` that the classifier sends to `env`. -/
def occCount (env_f : List String → Nat → String) (p env : String)
    (phones : List String) : Nat :=
  (phones.enum.filter (fun ip => decide (ip.2 = p ∧ env_f phones ip.1 = env))).length

/-- The words of the dataset rows that contribute phone `p` in environment
`env` (rows with at least one qualifying occurrence), with multiplicity. -/
def contribWords (env_f : List String → Nat → String) (p env : String)
    (df : List WordRecord) : List String :=
  (df.filter (fun r => decide (0 < occCount env_f p env (phone_sequence r.phono)))).map
    (fun r => r.word)

/-- Reachability invariant of the scan state: an environment key that was
never created has all-zero type counts and empty trackers, and every
created environment has a positive combined type count. -/
def ScanInv (phoneX phoneY : String) (s : ScanState) : Prop :=
  (∀ env, env ∉ s.envs → ∀ q, s.counts_type env q = 0 ∧ s.tracker env q = []) ∧
  (∀ env, env ∈ s.envs → 0 < s.counts_type env phoneX + s.counts_type env phoneY)

lemma isSome_ite {c : Prop} [Decidable c] (a b : String) :
    (if c then some a else some b).isSome = true := by
  split <;> rfl

lemma is_vowel_isSome_of_ne_empty (phone : String) (h : phone ≠ "") :
    (is_vowel phone).isSome = true := by
  cases phone with
  | mk data =>
    cases data with
    | nil => exact absurd rfl h
    | cons c cs => rfl

/-- C3: the claim that all three phone classifiers are total on any string
fails: `is_vowel` evaluates `phone[0]`, which raises `IndexError` on the
empty string (modelled as `none`). -/
theorem C3_counterexample : is_vowel "" = none := by decide

/-- C3 (amended): `is_front_vowel` and `is_back_vowel` are total on every
string (in particular the empty one) and return `false` for unrecognized
symbols, while `is_vowel` is total only on non-empty strings, also
defaulting to `false` on unrecognized symbols. -/
theorem C3_amended_totality :
    (∀ phone : String, phone ≠ "" → (is_vowel phone).isSome = true) ∧
    is_front_vowel "" = false ∧ is_back_vowel "" = false ∧
    is_vowel "q" = some false ∧ is_front_vowel "q" = false ∧ is_back_vowel "q" = false :=
  ⟨is_vowel_isSome_of_ne_empty, by decide, by decide, by decide, by decide, by decide⟩

/-- C3 witness: the amended theorem applied at the concrete phone `"a"`. -/
theorem C3_amended_totality_witness :
    ("a" : String) ≠ "" ∧ (is_vowel "a").isSome = true :=
  ⟨by decide, C3_amended_totality.1 "a" (by decide)⟩

/-- C5: on a one-phone word the index-0 branch wins: `env_s_S` classifies
the single-phone sequence `["s"]` as `WordInitial_s_alone`, and `env_d_t`
classifies any single-phone sequence as `WordInitial`, never `WordFinal`. -/
theorem C5_one_phone_initial_branch :
    env_s_S ["s"] 0 = some "WordInitial_s_alone" ∧
    ∀ p : String, env_d_t [p] 0 = some "WordInitial" :=
  ⟨by decide, fun _ => rfl⟩

/-- C10: `env_x_c` likewise gives the word-initial branch precedence: at
index 0 of any single-phone sequence it returns `WordInitial` immediately,
without any preceding-phone lookup. -/
theorem C10_x_c_initial_precedence :
    ∀ p : String, env_x_c [p] 0 = some "WordInitial" :=
  fun _ => rfl

/-- C9: on a list of non-empty phone strings and an in-range index, each of
the three environment classifiers returns a label with every list access in
range (no classifier evaluates to the out-of-range sentinel `none`). -/
theorem C9_classifiers_inbounds :
    ∀ (phones : List String) (i : Nat), (∀ p ∈ phones, p ≠ "") → i < phones.length →
    (env_x_c phones i).isSome = true ∧ (env_s_S phones i).isSome = true ∧
    (env_d_t phones i).isSome = true := by
  intro phones i hne hi
  refine ⟨?_, ?_, ?_⟩
  · by_cases h0 : i = 0
    · simp [env_x_c, h0]
    · have hip : i - 1 < phones.length := lt_of_le_of_lt (Nat.sub_le i 1) hi
      have hget := List.get?_eq_get hip
      simp only [env_x_c, if_neg h0, hget]
      split <;> split <;> simp
  · by_cases h0 : i = 0
    · subst h0
      by_cases hl : 1 < phones.length
      · have hget := List.get?_eq_get (show 0 + 1 < phones.length from by omega)
        simp [env_s_S, hl, hget, isSome_ite]
      · simp [env_s_S, hl]
    · simp [env_s_S, if_neg h0, isSome_ite]
  · by_cases h0 : i = 0
    · simp [env_d_t, h0]
    · by_cases hlast : i = phones.length - 1
      · simp only [env_d_t, if_neg h0, if_pos hlast]
        rfl
      · have hl : i - 1 < phones.length := by omega
        have hr : i + 1 < phones.length := by omega
        have hgl := List.get?_eq_get hl
        have hgr := List.get?_eq_get hr
        obtain ⟨lv, hlv⟩ := Option.isSome_iff_exists.mp
          (is_vowel_isSome_of_ne_empty _ (hne _ (List.get_mem _ _ hl)))
        obtain ⟨rv, hrv⟩ := Option.isSome_iff_exists.mp
          (is_vowel_isSome_of_ne_empty _ (hne _ (List.get_mem _ _ hr)))
        simp only [env_d_t, if_neg h0, if_neg hlast, hgl, hgr, hlv, hrv]
        cases lv
        · rfl
        · cases rv <;> simp

/-- C9 witness: the three classifiers at index 1 of `["a", "x", "b"]`. -/
theorem C9_classifiers_inbounds_witness :
    (∀ p ∈ (["a", "x", "b"] : List String), p ≠ "") ∧ 1 < (["a", "x", "b"] : List String).length ∧
    ((env_x_c ["a", "x", "b"] 1).isSome = true ∧ (env_s_S ["a", "x", "b"] 1).isSome = true ∧
      (env_d_t ["a", "x", "b"] 1).isSome = true) :=
  ⟨by decide, by decide, C9_classifiers_inbounds ["a", "x", "b"] 1 (by decide) (by decide)⟩

lemma shannon_entropy_eq_binEntropy (p : ℝ) (h0 : 0 ≤ p) (h1 : p ≤ 1) :
    shannon_entropy p (1 - p) = Real.binEntropy p / Real.log 2 := by
  rcases h0.eq_or_lt with rfl | hp0
  · simp [shannon_entropy]
  · rcases h1.eq_or_lt with rfl | hp1
    · simp [shannon_entropy]
    · have h1p : (0:ℝ) < 1 - p := by linarith
      simp only [shannon_entropy, if_pos hp0, if_pos h1p, Real.binEntropy,
        Real.log_inv, Real.logb]
      ring

lemma strictConcaveOn_shannon_entropy :
    StrictConcaveOn ℝ (Set.Icc 0 1) (fun p => shannon_entropy p (1 - p)) := by
  obtain ⟨hconv, hstrict⟩ := Real.strictConcave_binEntropy
  refine ⟨convex_Icc 0 1, ?_⟩
  intro x hx y hy hxy a b ha hb hab
  have hmem : a • x + b • y ∈ Set.Icc (0:ℝ) 1 := (convex_Icc 0 1) hx hy ha.le hb.le hab
  have hlog : 0 < Real.log 2 := Real.log_pos (by norm_num)
  have h := hstrict hx hy hxy ha hb hab
  simp only [smul_eq_mul] at h hmem ⊢
  rw [shannon_entropy_eq_binEntropy x hx.1 hx.2, shannon_entropy_eq_binEntropy y hy.1 hy.2,
    shannon_entropy_eq_binEntropy _ hmem.1 hmem.2]
  have heq : a * (Real.binEntropy x / Real.log 2) + b * (Real.binEntropy y / Real.log 2) =
      (a * Real.binEntropy x + b * Real.binEntropy y) / Real.log 2 := by ring
  rw [heq]
  exact (div_lt_div_iff_of_pos_right hlog).mpr h

/-- C7: `shannon_entropy` is symmetric in its two arguments on complementary
probability pairs, vanishes at the endpoints, equals 1 at the uniform pair,
a zero-probability term contributes exactly 0, and `p ↦ H(p, 1-p)` is
strictly concave on `[0, 1]`. -/
theorem C7_shannon_entropy_props :
    (∀ p : ℝ, 0 ≤ p → p ≤ 1 → shannon_entropy p (1 - p) = shannon_entropy (1 - p) p) ∧
    shannon_entropy 0 1 = 0 ∧ shannon_entropy 1 0 = 0 ∧
    shannon_entropy (1/2) (1/2) = 1 ∧
    (∀ p2 : ℝ, 0 < p2 → shannon_entropy 0 p2 = -(p2 * Real.logb 2 p2)) ∧
    StrictConcaveOn ℝ (Set.Icc 0 1) (fun p => shannon_entropy p (1 - p)) := by
  refine ⟨fun p _ _ => add_comm _ _, by simp [shannon_entropy], by simp [shannon_entropy], ?_, ?_, strictConcaveOn_shannon_entropy⟩
  · have h := shannon_entropy_eq_binEntropy (1/2) (by norm_num) (by norm_num)
    norm_num at h
    rw [h, show (1/2 : ℝ) = 2⁻¹ by norm_num, Real.binEntropy_two_inv,
      div_self (Real.log_pos (by norm_num)).ne']
  · intro p2 hp2
    simp [shannon_entropy, if_pos hp2]

/-- C7 witness: symmetry and the zero-term rule at the concrete pair
`(1/3, 2/3)`. -/
theorem C7_shannon_entropy_props_witness :
    shannon_entropy (1/3 : ℝ) (1 - 1/3) = shannon_entropy (1 - 1/3 : ℝ) (1/3) ∧
    shannon_entropy 0 (2/3 : ℝ) = -((2/3 : ℝ) * Real.logb 2 (2/3)) :=
  ⟨C7_shannon_entropy_props.1 (1/3) (by norm_num) (by norm_num),
   C7_shannon_entropy_props.2.2.2.2.1 (2/3) (by norm_num)⟩

lemma shannon_entropy_zero_one : shannon_entropy 0 1 = 0 := by
  simp [shannon_entropy]

lemma shannon_entropy_one_zero : shannon_entropy 1 0 = 0 := by
  simp [shannon_entropy]

lemma foldl_processOcc_of_no_match (phoneX phoneY : String)
    (env_f : List String → Nat → String) (word : String) (freq : Nat)
    (phones : List String) :
    ∀ (l : List (Nat × String)) (s : ScanState), (∀ ip ∈ l, ip.2 ≠ phoneX ∧ ip.2 ≠ phoneY) →
    l.foldl (fun s' ip => processOcc phoneX phoneY env_f word freq phones s' ip.1 ip.2) s = s := by
  intro l
  induction l with
  | nil => intro s _; rfl
  | cons ip rest ih =>
    intro s hl
    have hip := hl ip (List.mem_cons_self ip rest)
    have : processOcc phoneX phoneY env_f word freq phones s ip.1 ip.2 = s := by
      rw [processOcc, if_neg]
      rintro (h | h)
      · exact hip.1 h
      · exact hip.2 h
    rw [List.foldl_cons, this]
    exact ih s (fun ip' h => hl ip' (List.mem_cons_of_mem _ h))

lemma processRecord_of_absent (phoneX phoneY : String)
    (env_f : List String → Nat → String) (s : ScanState) (r : WordRecord)
    (hX : phoneX ∉ phone_sequence r.phono) (hY : phoneY ∉ phone_sequence r.phono) :
    processRecord phoneX phoneY env_f s r = s := by
  rw [processRecord]
  apply foldl_processOcc_of_no_match
  intro ip hip
  have hmem : ip.2 ∈ phone_sequence r.phono := by
    have := List.mem_enum_iff_getElem?.mp hip
    exact List.getElem?_mem this
  exact ⟨fun h => hX (h ▸ hmem), fun h => hY (h ▸ hmem)⟩

lemma scanRows_of_absent (df : List WordRecord) (phoneX phoneY : String)
    (env_f : List String → Nat → String)
    (h : ∀ r ∈ df, phoneX ∉ phone_sequence r.phono ∧ phoneY ∉ phone_sequence r.phono) :
    scanRows df phoneX phoneY env_f = initState := by
  rw [scanRows]
  induction df with
  | nil => rfl
  | cons r rest ih =>
    rw [List.foldl_cons,
      processRecord_of_absent _ _ _ _ _ (h r (List.mem_cons_self r rest)).1
        (h r (List.mem_cons_self r rest)).2]
    exact ih (fun r' h' => h r' (List.mem_cons_of_mem _ h'))

/-- C1 (amended): when neither target phone occurs anywhere in the dataset,
`pprm_for_pair` performs no division (no environment is ever created, so no
environment enters the probability computation): `total_types` and
`total_tokens` are 0, the per-environment entropy maps are empty, and the
returned overall type and token entropies are the plain number 0 rather
than a sentinel or absent value. -/
theorem C1_empty_pair_returns_zero :
    ∀ (df : List WordRecord) (phoneX phoneY : String) (env_f : List String → Nat → String),
    (∀ r ∈ df, phoneX ∉ phone_sequence r.phono ∧ phoneY ∉ phone_sequence r.phono) →
    (scanRows df phoneX phoneY env_f).envs = [] ∧
    total_types (scanRows df phoneX phoneY env_f) phoneX phoneY = 0 ∧
    total_tokens (scanRows df phoneX phoneY env_f) phoneX phoneY = 0 ∧
    (pprm_for_pair df phoneX phoneY env_f).env_type_entropies = [] ∧
    (pprm_for_pair df phoneX phoneY env_f).env_token_entropies = [] ∧
    (pprm_for_pair df phoneX phoneY env_f).type_entropy = 0 ∧
    (pprm_for_pair df phoneX phoneY env_f).token_entropy = 0 := by
  intro df phoneX phoneY env_f h
  have hs := scanRows_of_absent df phoneX phoneY env_f h
  refine ⟨by rw [hs]; rfl, by rw [total_types, hs]; rfl, by rw [total_tokens, hs]; rfl,
    ?_, ?_, ?_, ?_⟩ <;>
    simp [pprm_for_pair, hs, overall_entropy_type, overall_entropy_token,
      qualifying_type, qualifying_token, initState]

/-- C1 witness: the amended theorem at the spec's scenario dataset and the
absent pair (d, t). -/
theorem C1_empty_pair_returns_zero_witness :
    (∀ r ∈ habenSagenDf, "d" ∉ phone_sequence r.phono ∧ "t" ∉ phone_sequence r.phono) ∧
    ((scanRows habenSagenDf "d" "t" (envApply env_d_t)).envs = [] ∧
     total_types (scanRows habenSagenDf "d" "t" (envApply env_d_t)) "d" "t" = 0 ∧
     total_tokens (scanRows habenSagenDf "d" "t" (envApply env_d_t)) "d" "t" = 0 ∧
     (pprm_for_pair habenSagenDf "d" "t" (envApply env_d_t)).env_type_entropies = [] ∧
     (pprm_for_pair habenSagenDf "d" "t" (envApply env_d_t)).env_token_entropies = [] ∧
     (pprm_for_pair habenSagenDf "d" "t" (envApply env_d_t)).type_entropy = 0 ∧
     (pprm_for_pair habenSagenDf "d" "t" (envApply env_d_t)).token_entropy = 0) :=
  ⟨by decide, C1_empty_pair_returns_zero habenSagenDf "d" "t" (envApply env_d_t) (by decide)⟩

/-- C1: the claim as stated is false: on the spec's dataset with the absent
pair (d, t), both totals are 0, yet the result's entropies are not a
sentinel or absent value but the plain number 0 — exactly the value
returned for a dataset in which the pair does occur (deterministically), so
nothing in the result reports "no data".  (No division fault occurs: that
part of the claim holds, see the amended theorem.) -/
theorem C1_counterexample :
    total_types (scanRows habenSagenDf "d" "t" (envApply env_d_t)) "d" "t" = 0 ∧
    total_tokens (scanRows habenSagenDf "d" "t" (envApply env_d_t)) "d" "t" = 0 ∧
    (pprm_for_pair habenSagenDf "d" "t" (envApply env_d_t)).type_entropy = 0 ∧
    (pprm_for_pair habenSagenDf "d" "t" (envApply env_d_t)).token_entropy = 0 ∧
    (pprm_for_pair daDf "d" "t" (envApply env_d_t)).type_entropy = 0 ∧
    (pprm_for_pair daDf "d" "t" (envApply env_d_t)).token_entropy = 0 := by
  have hq : qualifying_type (scanRows habenSagenDf "d" "t" (envApply env_d_t)) "d" "t" = [] := by
    decide
  have hqk : qualifying_token (scanRows habenSagenDf "d" "t" (envApply env_d_t)) "d" "t" = [] := by
    decide
  have hscan : scanRows daDf "d" "t" (envApply env_d_t) = daScan := rfl
  have hqd : qualifying_type daScan "d" "t" = ["WordInitial"] := by decide
  have hqdk : qualifying_token daScan "d" "t" = ["WordInitial"] := by decide
  have hd : daScan.counts_type "WordInitial" "d" = 1 := by decide
  have ht : daScan.counts_type "WordInitial" "t" = 0 := by decide
  have hkd : daScan.counts_token "WordInitial" "d" = 1 := by decide
  have hkt : daScan.counts_token "WordInitial" "t" = 0 := by decide
  have hH : env_entropy_type daScan "d" "t" "WordInitial" = 0 := by
    simp only [env_entropy_type, hd, ht]
    norm_num [shannon_entropy_one_zero]
  have hHk : env_entropy_token daScan "d" "t" "WordInitial" = 0 := by
    simp only [env_entropy_token, hkd, hkt]
    norm_num [shannon_entropy_one_zero]
  refine ⟨by decide, by decide, ?_, ?_, ?_, ?_⟩
  · simp [pprm_for_pair, overall_entropy_type, hq]
  · simp [pprm_for_pair, overall_entropy_token, hqk]
  · simp [pprm_for_pair, hscan, overall_entropy_type, hqd, hH]
  · simp [pprm_for_pair, hscan, overall_entropy_token, hqdk, hHk]

/-- C6: for the single record ("ich", "I.C", 10) and the pair (x, ç), the
single occurrence of `C` (last index, preceded by the front vowel `I`) is
classified `WordFinal_AfterFrontOrCons`, with type count 1 and token count
10 for ç and zero counts for x, environment entropy 0, and overall type and
token entropies 0. -/
theorem C6_ich_scenario :
    envApply env_x_c (phone_sequence "I.C") 1 = "WordFinal_AfterFrontOrCons" ∧
    (pprm_for_pair ichDf "x" "C" (envApply env_x_c)).env_type_counts =
      [("WordFinal_AfterFrontOrCons", 0, 1)] ∧
    (pprm_for_pair ichDf "x" "C" (envApply env_x_c)).env_token_counts =
      [("WordFinal_AfterFrontOrCons", 0, 10)] ∧
    (pprm_for_pair ichDf "x" "C" (envApply env_x_c)).env_type_entropies =
      [("WordFinal_AfterFrontOrCons", 0)] ∧
    (pprm_for_pair ichDf "x" "C" (envApply env_x_c)).env_token_entropies =
      [("WordFinal_AfterFrontOrCons", 0)] ∧
    (pprm_for_pair ichDf "x" "C" (envApply env_x_c)).type_entropy = 0 ∧
    (pprm_for_pair ichDf "x" "C" (envApply env_x_c)).token_entropy = 0 := by
  have hscan : scanRows ichDf "x" "C" (envApply env_x_c) = ichScan := rfl
  have henvs : ichScan.envs = ["WordFinal_AfterFrontOrCons"] := by decide
  have hqt : qualifying_type ichScan "x" "C" = ["WordFinal_AfterFrontOrCons"] := by decide
  have hqk : qualifying_token ichScan "x" "C" = ["WordFinal_AfterFrontOrCons"] := by decide
  have hx : ichScan.counts_type "WordFinal_AfterFrontOrCons" "x" = 0 := by decide
  have hC : ichScan.counts_type "WordFinal_AfterFrontOrCons" "C" = 1 := by decide
  have hkx : ichScan.counts_token "WordFinal_AfterFrontOrCons" "x" = 0 := by decide
  have hkC : ichScan.counts_token "WordFinal_AfterFrontOrCons" "C" = 10 := by decide
  have hHt : env_entropy_type ichScan "x" "C" "WordFinal_AfterFrontOrCons" = 0 := by
    simp only [env_entropy_type, hx, hC]
    norm_num [shannon_entropy_zero_one]
  have hHk : env_entropy_token ichScan "x" "C" "WordFinal_AfterFrontOrCons" = 0 := by
    simp only [env_entropy_token, hkx, hkC]
    norm_num [shannon_entropy_zero_one]
  refine ⟨by decide, ?_, ?_, ?_, ?_, ?_, ?_⟩
  · simp [pprm_for_pair, hscan, henvs, hx, hC]
  · simp [pprm_for_pair, hscan, henvs, hkx, hkC]
  · simp [pprm_for_pair, hscan, hqt, hHt]
  · simp [pprm_for_pair, hscan, hqk, hHk]
  · simp [pprm_for_pair, hscan, overall_entropy_type, hqt, hHt]
  · simp [pprm_for_pair, hscan, overall_entropy_token, hqk, hHk]

lemma upd2_same {α : Type} (g : String → String → α) (e p : String) (v : α) :
    upd2 g e p v e p = v := if_pos ⟨rfl, rfl⟩

lemma upd2_ne {α : Type} (g : String → String → α) (e p : String) (v : α)
    (e' p' : String) (h : ¬(e' = e ∧ p' = p)) : upd2 g e p v e' p' = g e' p' := if_neg h

lemma le_upd2_succ (g : String → String → Nat) (e p e' p' : String) (k : Nat) :
    g e' p' ≤ upd2 g e p (g e p + k) e' p' := by
  rw [upd2]
  split
  · rename_i h
    obtain ⟨rfl, rfl⟩ := h
    exact Nat.le_add_right _ _
  · exact le_refl _

lemma ensure_env_counts_type (s : ScanState) (e : String) :
    (ensure_env s e).counts_type = s.counts_type := by
  rw [ensure_env]; split <;> rfl

lemma ensure_env_counts_token (s : ScanState) (e : String) :
    (ensure_env s e).counts_token = s.counts_token := by
  rw [ensure_env]; split <;> rfl

lemma ensure_env_tracker (s : ScanState) (e : String) :
    (ensure_env s e).tracker = s.tracker := by
  rw [ensure_env]; split <;> rfl

lemma mem_ensure_env_envs (s : ScanState) (e env : String) :
    env ∈ (ensure_env s e).envs ↔ env ∈ s.envs ∨ env = e := by
  rw [ensure_env]
  split
  · rename_i h
    constructor
    · exact fun h' => Or.inl h'
    · rintro (h' | rfl)
      · exact h'
      · exact h
  · simp

lemma processOcc_not_target (phoneX phoneY : String) (env_f : List String → Nat → String)
    (word : String) (freq : Nat) (phones : List String) (s : ScanState) (i : Nat)
    (ph : String) (h : ¬(ph = phoneX ∨ ph = phoneY)) :
    processOcc phoneX phoneY env_f word freq phones s i ph = s := if_neg h

lemma processOcc_envs (phoneX phoneY : String) (env_f : List String → Nat → String)
    (word : String) (freq : Nat) (phones : List String) (s : ScanState) (i : Nat)
    (ph : String) (h : ph = phoneX ∨ ph = phoneY) :
    (processOcc phoneX phoneY env_f word freq phones s i ph).envs =
      (ensure_env s (env_f phones i)).envs := by
  simp only [processOcc, if_pos h]
  split <;> rfl

lemma processOcc_counts_type (phoneX phoneY : String) (env_f : List String → Nat → String)
    (word : String) (freq : Nat) (phones : List String) (s : ScanState) (i : Nat)
    (ph : String) (h : ph = phoneX ∨ ph = phoneY) :
    (processOcc phoneX phoneY env_f word freq phones s i ph).counts_type =
      if word ∈ s.tracker (env_f phones i) ph then s.counts_type
      else upd2 s.counts_type (env_f phones i) ph
        (s.counts_type (env_f phones i) ph + 1) := by
  simp only [processOcc, if_pos h, ensure_env_counts_type, ensure_env_tracker]
  split <;> simp [ensure_env_counts_type]

lemma processOcc_tracker (phoneX phoneY : String) (env_f : List String → Nat → String)
    (word : String) (freq : Nat) (phones : List String) (s : ScanState) (i : Nat)
    (ph : String) (h : ph = phoneX ∨ ph = phoneY) :
    (processOcc phoneX phoneY env_f word freq phones s i ph).tracker =
      if word ∈ s.tracker (env_f phones i) ph then s.tracker
      else upd2 s.tracker (env_f phones i) ph
        (word :: s.tracker (env_f phones i) ph) := by
  simp only [processOcc, if_pos h, ensure_env_counts_type, ensure_env_tracker]
  split <;> simp [ensure_env_tracker]

lemma processOcc_counts_token (phoneX phoneY : String) (env_f : List String → Nat → String)
    (word : String) (freq : Nat) (phones : List String) (s : ScanState) (i : Nat)
    (ph : String) (h : ph = phoneX ∨ ph = phoneY) :
    (processOcc phoneX phoneY env_f word freq phones s i ph).counts_token =
      upd2 s.counts_token (env_f phones i) ph
        (s.counts_token (env_f phones i) ph + freq) := by
  simp only [processOcc, if_pos h, ensure_env_counts_token, ensure_env_tracker]
  split <;> simp [ensure_env_counts_token]

lemma processOcc_scanInv (phoneX phoneY : String) (env_f : List String → Nat → String)
    (word : String) (freq : Nat) (phones : List String) (s : ScanState) (i : Nat)
    (ph : String) (hs : ScanInv phoneX phoneY s) :
    ScanInv phoneX phoneY (processOcc phoneX phoneY env_f word freq phones s i ph) := by
  obtain ⟨h1, h2⟩ := hs
  by_cases hg : ph = phoneX ∨ ph = phoneY
  · have henvs := processOcc_envs phoneX phoneY env_f word freq phones s i ph hg
    have hct := processOcc_counts_type phoneX phoneY env_f word freq phones s i ph hg
    have htr := processOcc_tracker phoneX phoneY env_f word freq phones s i ph hg
    constructor
    · intro env henv q
      rw [henvs, mem_ensure_env_envs] at henv
      push_neg at henv
      obtain ⟨henv1, henv2⟩ := henv
      rw [hct, htr]
      constructor
      · split
        · exact (h1 env henv1 q).1
        · rw [upd2_ne _ _ _ _ _ _ (fun hc => henv2 hc.1)]
          exact (h1 env henv1 q).1
      · split
        · exact (h1 env henv1 q).2
        · rw [upd2_ne _ _ _ _ _ _ (fun hc => henv2 hc.1)]
          exact (h1 env henv1 q).2
    · intro env henv
      rw [henvs, mem_ensure_env_envs] at henv
      rw [hct]
      by_cases hmem : env ∈ s.envs
      · have hpos := h2 env hmem
        split
        · exact hpos
        · exact lt_of_lt_of_le hpos
            (Nat.add_le_add (le_upd2_succ _ _ _ _ _ 1) (le_upd2_succ _ _ _ _ _ 1))
      · have hEq : env = env_f phones i := (henv.resolve_left hmem)
        have htr0 : s.tracker (env_f phones i) ph = [] := by
          rw [← hEq]; exact (h1 env hmem ph).2
        rw [if_neg (by rw [htr0]; exact List.not_mem_nil word)]
        have hself : upd2 s.counts_type (env_f phones i) ph
            (s.counts_type (env_f phones i) ph + 1) (env_f phones i) ph =
            s.counts_type (env_f phones i) ph + 1 := upd2_same _ _ _ _
        rcases hg with hg1 | hg1
        · have : 0 < upd2 s.counts_type (env_f phones i) ph
              (s.counts_type (env_f phones i) ph + 1) env phoneX := by
            rw [hEq, ← hg1, hself]
            exact Nat.succ_pos _
          exact Nat.lt_of_lt_of_le this (Nat.le_add_right _ _)
        · have : 0 < upd2 s.counts_type (env_f phones i) ph
              (s.counts_type (env_f phones i) ph + 1) env phoneY := by
            rw [hEq, ← hg1, hself]
            exact Nat.succ_pos _
          exact Nat.lt_of_lt_of_le this (Nat.le_add_left _ _)
  · rw [processOcc_not_target _ _ _ _ _ _ _ _ _ hg]
    exact ⟨h1, h2⟩

lemma foldl_processOcc_scanInv (phoneX phoneY : String)
    (env_f : List String → Nat → String) (word : String) (freq : Nat)
    (phones : List String) :
    ∀ (l : List (Nat × String)) (s : ScanState), ScanInv phoneX phoneY s →
    ScanInv phoneX phoneY
      (l.foldl (fun s' ip => processOcc phoneX phoneY env_f word freq phones s' ip.1 ip.2) s) := by
  intro l
  induction l with
  | nil => exact fun s hs => hs
  | cons ip rest ih =>
    intro s hs
    rw [List.foldl_cons]
    exact ih _ (processOcc_scanInv _ _ _ _ _ _ _ _ _ hs)

lemma processRecord_scanInv (phoneX phoneY : String)
    (env_f : List String → Nat → String) (s : ScanState) (r : WordRecord)
    (hs : ScanInv phoneX phoneY s) :
    ScanInv phoneX phoneY (processRecord phoneX phoneY env_f s r) := by
  rw [processRecord]
  exact foldl_processOcc_scanInv _ _ _ _ _ _ _ s hs

lemma scanRows_scanInv (df : List WordRecord) (phoneX phoneY : String)
    (env_f : List String → Nat → String) :
    ScanInv phoneX phoneY (scanRows df phoneX phoneY env_f) := by
  rw [scanRows]
  have hgen : ∀ (l : List WordRecord) (s : ScanState), ScanInv phoneX phoneY s →
      ScanInv phoneX phoneY (l.foldl (processRecord phoneX phoneY env_f) s) := by
    intro l
    induction l with
    | nil => exact fun s hs => hs
    | cons r rest ih =>
      intro s hs
      rw [List.foldl_cons]
      exact ih _ (processRecord_scanInv _ _ _ _ _ hs)
  exact hgen df initState
    ⟨fun _ _ _ => ⟨rfl, rfl⟩, fun env h => absurd h (List.not_mem_nil env)⟩

/-- C8: the claim is false for the token-count map: with a row of corpus
frequency 0, the environment `WordInitial` is present in the count maps but
both its token counts are 0. -/
theorem C8_counterexample :
    "WordInitial" ∈ (scanRows zeroFreqDf "x" "C" (envApply env_x_c)).envs ∧
    (scanRows zeroFreqDf "x" "C" (envApply env_x_c)).counts_token "WordInitial" "x" = 0 ∧
    (scanRows zeroFreqDf "x" "C" (envApply env_x_c)).counts_token "WordInitial" "C" = 0 := by
  refine ⟨by decide, by decide, by decide⟩

/-- C8 (amended): every environment present in the count maps has at least
one non-zero phone count in the type-count map (environments are only
created when an occurrence is classified into them, and creation increments
a type count); the token-count map can be all zero for an environment when
the contributing frequencies are 0. -/
theorem C8_env_nonzero_type_count :
    ∀ (df : List WordRecord) (phoneX phoneY : String)
      (env_f : List String → Nat → String) (env : String),
    env ∈ (scanRows df phoneX phoneY env_f).envs →
    0 < (scanRows df phoneX phoneY env_f).counts_type env phoneX +
        (scanRows df phoneX phoneY env_f).counts_type env phoneY :=
  fun df phoneX phoneY env_f env henv =>
    (scanRows_scanInv df phoneX phoneY env_f).2 env henv

/-- C8 witness: the amended theorem at the `ich` dataset. -/
theorem C8_env_nonzero_type_count_witness :
    "WordFinal_AfterFrontOrCons" ∈ (scanRows ichDf "x" "C" (envApply env_x_c)).envs ∧
    0 < (scanRows ichDf "x" "C" (envApply env_x_c)).counts_type "WordFinal_AfterFrontOrCons" "x" +
        (scanRows ichDf "x" "C" (envApply env_x_c)).counts_type "WordFinal_AfterFrontOrCons" "C" :=
  ⟨by decide,
   C8_env_nonzero_type_count ichDf "x" "C" (envApply env_x_c) "WordFinal_AfterFrontOrCons"
     (by decide)⟩

lemma list_sum_map_div (l : List String) (f : String → ℚ) (c : ℚ) :
    (l.map (fun x => f x / c)).sum = (l.map f).sum / c := by
  induction l with
  | nil => simp
  | cons a l ih => simp [ih, add_div]

lemma sum_map_filter_pos (l : List String) (g : String → Nat) :
    ((l.filter (fun e => decide (0 < g e))).map g).sum = (l.map g).sum := by
  induction l with
  | nil => rfl
  | cons a l ih =>
    by_cases h : 0 < g a
    · simp [List.filter_cons, h, ih]
    · have hz : g a = 0 := by omega
      simp [List.filter_cons, h, ih, hz]

lemma cast_sum_map (l : List String) (g : String → Nat) :
    (l.map (fun e => ((g e : Nat) : ℚ))).sum = (((l.map g).sum : Nat) : ℚ) := by
  induction l with
  | nil => simp
  | cons a l ih => simp [ih]

lemma sum_probs_eq_one (l : List String) (g : String → Nat) (hT : 0 < (l.map g).sum) :
    ((l.filter (fun e => decide (0 < g e))).map
      (fun e => ((g e : Nat) : ℚ) / (((l.map g).sum : Nat) : ℚ))).sum = 1 := by
  rw [list_sum_map_div, cast_sum_map, sum_map_filter_pos]
  exact div_self (Nat.cast_ne_zero.mpr hT.ne')

/-- C4: whenever `total_types` is positive, the environment weights entering
the type-entropy sum add up to exactly 1, and likewise for the token scheme
whenever `total_tokens` is positive. -/
theorem C4_env_weights_sum_one :
    ∀ (df : List WordRecord) (phoneX phoneY : String)
      (env_f : List String → Nat → String),
    (0 < total_types (scanRows df phoneX phoneY env_f) phoneX phoneY →
      ((pprm_for_pair df phoneX phoneY env_f).env_type_probs.map Prod.snd).sum = 1) ∧
    (0 < total_tokens (scanRows df phoneX phoneY env_f) phoneX phoneY →
      ((pprm_for_pair df phoneX phoneY env_f).env_token_probs.map Prod.snd).sum = 1) := by
  intro df phoneX phoneY env_f
  constructor
  · intro hT
    have h := sum_probs_eq_one (scanRows df phoneX phoneY env_f).envs
      (fun env => (scanRows df phoneX phoneY env_f).counts_type env phoneX +
        (scanRows df phoneX phoneY env_f).counts_type env phoneY) hT
    simpa [pprm_for_pair, List.map_map, Function.comp, env_prob_type,
      qualifying_type, total_types] using h
  · intro hT
    have h := sum_probs_eq_one (scanRows df phoneX phoneY env_f).envs
      (fun env => (scanRows df phoneX phoneY env_f).counts_token env phoneX +
        (scanRows df phoneX phoneY env_f).counts_token env phoneY) hT
    simpa [pprm_for_pair, List.map_map, Function.comp, env_prob_token,
      qualifying_token, total_tokens] using h

/-- C4 witness: the weights at the `ich` dataset for the pair (x, ç). -/
theorem C4_env_weights_sum_one_witness :
    (0 < total_types (scanRows ichDf "x" "C" (envApply env_x_c)) "x" "C" ∧
      ((pprm_for_pair ichDf "x" "C" (envApply env_x_c)).env_type_probs.map Prod.snd).sum = 1) ∧
    (0 < total_tokens (scanRows ichDf "x" "C" (envApply env_x_c)) "x" "C" ∧
      ((pprm_for_pair ichDf "x" "C" (envApply env_x_c)).env_token_probs.map Prod.snd).sum = 1) :=
  ⟨⟨by decide, (C4_env_weights_sum_one ichDf "x" "C" (envApply env_x_c)).1 (by decide)⟩,
   ⟨by decide, (C4_env_weights_sum_one ichDf "x" "C" (envApply env_x_c)).2 (by decide)⟩⟩

lemma card_insert_eq_card_erase_add_one (B : Finset String) (a : String) :
    (insert a B).card = (B.erase a).card + 1 := by
  by_cases h : a ∈ B
  · rw [Finset.insert_eq_self.mpr h, Finset.card_erase_of_mem h]
    exact (Nat.sub_add_cancel (Finset.card_pos.mpr ⟨a, h⟩)).symm
  · rw [Finset.card_insert_of_not_mem h, Finset.erase_eq_of_not_mem h]

lemma foldl_processOcc_cell (phoneX phoneY : String) (env_f : List String → Nat → String)
    (word : String) (freq : Nat) (phones : List String) (env p : String)
    (hp : p = phoneX ∨ p = phoneY) :
    ∀ (l : List (Nat × String)) (s : ScanState),
    (l.foldl (fun s' ip => processOcc phoneX phoneY env_f word freq phones s' ip.1 ip.2)
        s).counts_token env p
      = s.counts_token env p +
        freq * (l.filter (fun ip => decide (ip.2 = p ∧ env_f phones ip.1 = env))).length ∧
    (∀ v, v ∈ (l.foldl (fun s' ip => processOcc phoneX phoneY env_f word freq phones s' ip.1 ip.2)
        s).tracker env p ↔
      v ∈ s.tracker env p ∨ (v = word ∧
        0 < (l.filter (fun ip => decide (ip.2 = p ∧ env_f phones ip.1 = env))).length)) ∧
    (l.foldl (fun s' ip => processOcc phoneX phoneY env_f word freq phones s' ip.1 ip.2)
        s).counts_type env p
      = s.counts_type env p +
        (if 0 < (l.filter (fun ip => decide (ip.2 = p ∧ env_f phones ip.1 = env))).length ∧
            word ∉ s.tracker env p then 1 else 0) := by
  intro l
  induction l with
  | nil =>
    intro s
    refine ⟨by simp, fun v => by simp, by simp⟩
  | cons ip rest ih =>
    intro s
    rw [List.foldl_cons]
    by_cases hq : ip.2 = p ∧ env_f phones ip.1 = env
    · obtain ⟨hph, henv⟩ := hq
      have hg : ip.2 = phoneX ∨ ip.2 = phoneY := by
        rcases hp with rfl | rfl
        · exact Or.inl hph
        · exact Or.inr hph
      have hk : ((ip :: rest).filter
          (fun ip => decide (ip.2 = p ∧ env_f phones ip.1 = env))).length =
          (rest.filter (fun ip => decide (ip.2 = p ∧ env_f phones ip.1 = env))).length + 1 := by
        simp [List.filter_cons, hph, henv]
      have htok1 : (processOcc phoneX phoneY env_f word freq phones s ip.1 ip.2).counts_token
          env p = s.counts_token env p + freq := by
        rw [processOcc_counts_token _ _ _ _ _ _ _ _ _ hg, henv, hph, upd2_same]
      obtain ⟨ihtok, ihtr, ihct⟩ :=
        ih (processOcc phoneX phoneY env_f word freq phones s ip.1 ip.2)
      by_cases hw : word ∈ s.tracker env p
      · have hct1 : (processOcc phoneX phoneY env_f word freq phones s ip.1 ip.2).counts_type =
            s.counts_type := by
          rw [processOcc_counts_type _ _ _ _ _ _ _ _ _ hg, henv, hph, if_pos hw]
        have htr1 : (processOcc phoneX phoneY env_f word freq phones s ip.1 ip.2).tracker =
            s.tracker := by
          rw [processOcc_tracker _ _ _ _ _ _ _ _ _ hg, henv, hph, if_pos hw]
        refine ⟨?_, ?_, ?_⟩
        · rw [ihtok, htok1, hk]; ring
        · intro v
          rw [ihtr v, htr1, hk]
          constructor
          · rintro (h | ⟨rfl, -⟩)
            · exact Or.inl h
            · exact Or.inl hw
          · rintro (h | ⟨rfl, -⟩)
            · exact Or.inl h
            · exact Or.inl hw
        · rw [ihct, hct1, htr1, hk, if_neg (fun hc => hc.2 hw), if_neg (fun hc => hc.2 hw)]
      · have hct1 : (processOcc phoneX phoneY env_f word freq phones s ip.1 ip.2).counts_type
            env p = s.counts_type env p + 1 := by
          rw [processOcc_counts_type _ _ _ _ _ _ _ _ _ hg, henv, hph, if_neg hw, upd2_same]
        have htr1 : (processOcc phoneX phoneY env_f word freq phones s ip.1 ip.2).tracker
            env p = word :: s.tracker env p := by
          rw [processOcc_tracker _ _ _ _ _ _ _ _ _ hg, henv, hph, if_neg hw, upd2_same]
        refine ⟨?_, ?_, ?_⟩
        · rw [ihtok, htok1, hk]; ring
        · intro v
          rw [ihtr v, htr1, hk, List.mem_cons]
          constructor
          · rintro ((rfl | h) | ⟨rfl, -⟩)
            · exact Or.inr ⟨rfl, Nat.succ_pos _⟩
            · exact Or.inl h
            · exact Or.inr ⟨rfl, Nat.succ_pos _⟩
          · rintro (h | ⟨rfl, -⟩)
            · exact Or.inl (Or.inr h)
            · exact Or.inl (Or.inl rfl)
        · rw [ihct, hct1, htr1, hk,
            if_neg (fun hc => hc.2 (List.mem_cons_self word _)),
            if_pos ⟨Nat.succ_pos _, hw⟩]
    · have hk : ((ip :: rest).filter
          (fun ip => decide (ip.2 = p ∧ env_f phones ip.1 = env))).length =
          (rest.filter (fun ip => decide (ip.2 = p ∧ env_f phones ip.1 = env))).length := by
        simp [List.filter_cons, hq]
      have hcell : (processOcc phoneX phoneY env_f word freq phones s ip.1 ip.2).counts_token
            env p = s.counts_token env p ∧
          (processOcc phoneX phoneY env_f word freq phones s ip.1 ip.2).counts_type
            env p = s.counts_type env p ∧
          (processOcc phoneX phoneY env_f word freq phones s ip.1 ip.2).tracker
            env p = s.tracker env p := by
        by_cases hg : ip.2 = phoneX ∨ ip.2 = phoneY
        · have hne : ¬(env = env_f phones ip.1 ∧ p = ip.2) :=
            fun hc => hq ⟨hc.2.symm, hc.1.symm⟩
          refine ⟨?_, ?_, ?_⟩
          · rw [processOcc_counts_token _ _ _ _ _ _ _ _ _ hg, upd2_ne _ _ _ _ _ _ hne]
          · rw [processOcc_counts_type _ _ _ _ _ _ _ _ _ hg]
            split
            · rfl
            · rw [upd2_ne _ _ _ _ _ _ hne]
          · rw [processOcc_tracker _ _ _ _ _ _ _ _ _ hg]
            split
            · rfl
            · rw [upd2_ne _ _ _ _ _ _ hne]
        · rw [processOcc_not_target _ _ _ _ _ _ _ _ _ hg]
          exact ⟨rfl, rfl, rfl⟩
      obtain ⟨htok1, hct1, htr1⟩ := hcell
      obtain ⟨ihtok, ihtr, ihct⟩ :=
        ih (processOcc phoneX phoneY env_f word freq phones s ip.1 ip.2)
      refine ⟨?_, ?_, ?_⟩
      · rw [ihtok, htok1, hk]
      · intro v
        rw [ihtr v, htr1, hk]
      · rw [ihct, hct1, htr1, hk]

lemma contribWords_cons (env_f : List String → Nat → String) (p env : String)
    (r : WordRecord) (df : List WordRecord) :
    contribWords env_f p env (r :: df) =
      if 0 < occCount env_f p env (phone_sequence r.phono) then
        r.word :: contribWords env_f p env df
      else contribWords env_f p env df := by
  simp only [contribWords, List.filter_cons, decide_eq_true_eq]
  split_ifs with h
  · rfl
  · rfl

lemma foldl_processRecord_cell (phoneX phoneY : String)
    (env_f : List String → Nat → String) (env p : String)
    (hp : p = phoneX ∨ p = phoneY) :
    ∀ (df : List WordRecord) (s : ScanState),
    (df.foldl (processRecord phoneX phoneY env_f) s).counts_token env p
      = s.counts_token env p +
        (df.map (fun r => r.freq * occCount env_f p env (phone_sequence r.phono))).sum ∧
    (∀ v, v ∈ (df.foldl (processRecord phoneX phoneY env_f) s).tracker env p ↔
      v ∈ s.tracker env p ∨ v ∈ contribWords env_f p env df) ∧
    (df.foldl (processRecord phoneX phoneY env_f) s).counts_type env p
      = s.counts_type env p +
        ((contribWords env_f p env df).toFinset.filter
          (fun w => w ∉ s.tracker env p)).card := by
  intro df
  induction df with
  | nil =>
    intro s
    refine ⟨by simp, fun v => by simp [contribWords], by simp [contribWords]⟩
  | cons r rest ih =>
    intro s
    rw [List.foldl_cons]
    obtain ⟨htok1, htr1, hct1⟩ :=
      foldl_processOcc_cell phoneX phoneY env_f r.word r.freq (phone_sequence r.phono)
        env p hp (phone_sequence r.phono).enum s
    rw [processRecord] at *
    obtain ⟨ihtok, ihtr, ihct⟩ := ih
      ((phone_sequence r.phono).enum.foldl
        (fun s' ip =>
          processOcc phoneX phoneY env_f r.word r.freq (phone_sequence r.phono) s' ip.1 ip.2) s)
    have hkr : ((phone_sequence r.phono).enum.filter
        (fun ip => decide (ip.2 = p ∧ env_f (phone_sequence r.phono) ip.1 = env))).length =
        occCount env_f p env (phone_sequence r.phono) := rfl
    rw [hkr] at htok1 htr1 hct1
    refine ⟨?_, ?_, ?_⟩
    · rw [ihtok, htok1, List.map_cons, List.sum_cons, Nat.add_assoc]
    · intro v
      rw [ihtr v, contribWords_cons]
      by_cases hk : 0 < occCount env_f p env (phone_sequence r.phono)
      · rw [if_pos hk, List.mem_cons]
        constructor
        · rintro (h | h)
          · rcases (htr1 v).mp h with h' | ⟨rfl, -⟩
            · exact Or.inl h'
            · exact Or.inr (Or.inl rfl)
          · exact Or.inr (Or.inr h)
        · rintro (h | (hv | h))
          · exact Or.inl ((htr1 v).mpr (Or.inl h))
          · exact Or.inl ((htr1 v).mpr (Or.inr ⟨hv, hk⟩))
          · exact Or.inr h
      · rw [if_neg hk]
        constructor
        · rintro (h | h)
          · rcases (htr1 v).mp h with h' | ⟨rfl, hk'⟩
            · exact Or.inl h'
            · exact absurd hk' hk
          · exact Or.inr h
        · rintro (h | h)
          · exact Or.inl ((htr1 v).mpr (Or.inl h))
          · exact Or.inr h
    · rw [ihct, hct1, contribWords_cons]
      have hfiltr : ((contribWords env_f p env rest).toFinset.filter
          (fun w => w ∉ ((phone_sequence r.phono).enum.foldl
            (fun s' ip => processOcc phoneX phoneY env_f r.word r.freq
              (phone_sequence r.phono) s' ip.1 ip.2) s).tracker env p)) =
          ((contribWords env_f p env rest).toFinset.filter
            (fun w => ¬(w ∈ s.tracker env p ∨ (w = r.word ∧
              0 < occCount env_f p env (phone_sequence r.phono))))) :=
        Finset.filter_congr (fun v _ => by rw [htr1 v])
      rw [hfiltr]
      by_cases hk : 0 < occCount env_f p env (phone_sequence r.phono)
      · rw [if_pos hk, List.toFinset_cons, Finset.filter_insert]
        by_cases hwT : r.word ∈ s.tracker env p
        · rw [if_neg (fun hc => hc.2 hwT), if_neg (fun hc => hc hwT), Nat.add_zero]
          congr 2
          ext v
          simp only [Finset.mem_filter]
          constructor
          · rintro ⟨hA, hn⟩
            exact ⟨hA, fun hc => hn (Or.inl hc)⟩
          · rintro ⟨hA, hnT⟩
            refine ⟨hA, ?_⟩
            rintro (hc | ⟨hv, -⟩)
            · exact hnT hc
            · exact hnT (hv ▸ hwT)
        · rw [if_pos ⟨hk, hwT⟩, if_pos hwT, card_insert_eq_card_erase_add_one]
          have herase : ((contribWords env_f p env rest).toFinset.filter
              (fun w => w ∉ s.tracker env p)).erase r.word =
              ((contribWords env_f p env rest).toFinset.filter
                (fun w => ¬(w ∈ s.tracker env p ∨ (w = r.word ∧
                  0 < occCount env_f p env (phone_sequence r.phono))))) := by
            ext v
            simp only [Finset.mem_erase, Finset.mem_filter]
            constructor
            · rintro ⟨hv, hmem, hnt⟩
              exact ⟨hmem, by rintro (hc | ⟨rfl, -⟩); exacts [hnt hc, hv rfl]⟩
            · rintro ⟨hmem, hn⟩
              refine ⟨fun hc => hn (Or.inr ⟨hc, hk⟩), hmem, fun hc => hn (Or.inl hc)⟩
          rw [herase]
          omega
      · rw [if_neg hk, if_neg (fun hc => hk hc.1), Nat.add_zero]
        congr 1
        apply congrArg Finset.card
        apply Finset.filter_congr
        intro v _
        constructor
        · intro hv hc
          exact hv (Or.inl hc)
        · intro hv
          rintro (hc | ⟨-, hc⟩)
          · exact hv hc
          · exact hk hc

/-- C2: after the scan, for each (environment, phone) cell with the phone
one of the two targets, the type count equals the number of distinct words
with at least one qualifying occurrence of that phone in that environment
(de-duplication key (environment, phone, word)), while the token count is
the sum over rows of the row frequency times its number of qualifying
occurrences — k occurrences in the same environment add 1 type and
k · frequency tokens. -/
theorem C2_type_token_count_invariant :
    ∀ (df : List WordRecord) (phoneX phoneY : String)
      (env_f : List String → Nat → String) (env p : String),
    p = phoneX ∨ p = phoneY →
    (scanRows df phoneX phoneY env_f).counts_type env p =
      (contribWords env_f p env df).toFinset.card ∧
    (scanRows df phoneX phoneY env_f).counts_token env p =
      (df.map (fun r => r.freq * occCount env_f p env (phone_sequence r.phono))).sum := by
  intro df phoneX phoneY env_f env p hp
  obtain ⟨htok, _, hct⟩ := foldl_processRecord_cell phoneX phoneY env_f env p hp df initState
  constructor
  · rw [scanRows, hct]
    have : ((contribWords env_f p env df).toFinset.filter
        (fun w => w ∉ initState.tracker env p)) = (contribWords env_f p env df).toFinset :=
      Finset.filter_true_of_mem (fun x _ => List.not_mem_nil x)
    rw [this]
    simp [initState]
  · rw [scanRows, htok]
    simp [initState]

/-- C2 witness: the word "atata" (frequency 5) has two occurrences of `t`
in environment `Intervocalic_V_V`; the theorem applied there. -/
theorem C2_type_token_count_invariant_witness :
    (scanRows atataDf "d" "t" (envApply env_d_t)).counts_type "Intervocalic_V_V" "t" =
      (contribWords (envApply env_d_t) "t" "Intervocalic_V_V" atataDf).toFinset.card ∧
    (scanRows atataDf "d" "t" (envApply env_d_t)).counts_token "Intervocalic_V_V" "t" =
      (atataDf.map (fun r => r.freq *
        occCount (envApply env_d_t) "t" "Intervocalic_V_V" (phone_sequence r.phono))).sum :=
  C2_type_token_count_invariant atataDf "d" "t" (envApply env_d_t) "Intervocalic_V_V" "t"
    (Or.inr rfl)

example : (scanRows atataDf "d" "t" (envApply env_d_t)).counts_type "Intervocalic_V_V" "t" = 1 := by
  decide

example : (scanRows atataDf "d" "t" (envApply env_d_t)).counts_token "Intervocalic_V_V" "t" = 10 := by
  decide

example : occCount (envApply env_d_t) "t" "Intervocalic_V_V" (phone_sequence "a.t.a.t.a") = 2 := by
  decide
